import Mathlib

/-!
Verification development for the `chtc-htcondor-es` history harvester
(`src/htcondor_es/history.py`, `src/htcondor_es/spider.py`).

The Python worker functions `process_schedd` and `process_startd` are
embedded as one generic, executable state machine `runWorker`
parameterised by the cursor type and the cursor-update rule (the only
places where the two functions differ, besides the query expression and
the checkpoint payload).  External effects are made explicit:

* the lazy history iterator returned by the daemon's query capability is
  a finite list of `JobAd` values;
* `convert.to_json` (not under `src/`) is abstracted by the
  `convertible` / `docId` fields of a `JobAd`;
* `elastic.post_ads` is an event whose success is decided by an oracle
  `postOk : Nat → Bool` indexed by the number of post calls made so far
  (`false` models the call raising an exception);
* `utils.time_remaining` values are supplied by `timeRem0 : Int` (the
  preflight call at the top of the worker) and `timeRem : Nat → Int`
  (the per-record call, indexed by the processed-record count).

Ads are modelled with an integer `EnteredCurrentStatus` (the worker loop
compares it with the cursor, so only such ads complete a run), an
optional integer `QDate` and an optional, possibly non-numeric value for
the configured index-date attribute (`ad.get(args.es_index_date_attr)`).
-/

namespace Spider

/-- A classad attribute value as seen by `index_time`: either a numeric
value or something `int()` fails on (`ValueError`/`TypeError`). -/
inductive AdVal where
  | num (n : Int)
  | nonNumeric
  deriving DecidableEq, Repr

/-- One job ad from a daemon's history, together with the behaviour of
the external collaborators on it: `convertible` tells whether
`convert.to_json` succeeds, `docId` is `convert.unique_doc_id` of the
converted document. -/
structure JobAd where
  indexAttrVal : Option AdVal
  enteredCurrentStatus : Int
  qdate : Option Int
  globalJobId : String
  convertible : Bool
  docId : Nat
  deriving DecidableEq, Repr

/-- `history.index_time` (history.py lines 21-41): the destination
timestamp for an ad, in priority order: configured attribute if numeric
and positive, else `EnteredCurrentStatus` if positive, else `QDate` if
present and positive, else the module launch time `_LAUNCH_TIME`. -/
def index_time (ad : JobAd) (launchTime : Int) : Int :=
  let fb :=
    if ad.enteredCurrentStatus > 0 then ad.enteredCurrentStatus
    else
      match ad.qdate with
      | some q => if q > 0 then q else launchTime
      | none => launchTime
  match ad.indexAttrVal with
  | some (AdVal.num n) => if n > 0 then n else fb
  | some AdVal.nonNumeric => fb
  | none => fb

/-- Modelled from the spec: `elastic.get_index` lives in
`src/htcondor_es/elastic.py`, which is not part of this repository
snapshot.  Per the spec, the destination bucket key is a partition
identifier derived from the chosen time, so the key is taken to be the
timestamp itself. -/
def get_index (t : Int) : Int := t

/-- The condition of history.py line 30: the configured index attribute
is present, numeric and positive. -/
def primaryPositive (ad : JobAd) : Bool :=
  match ad.indexAttrVal with
  | some (AdVal.num n) => decide (0 < n)
  | some AdVal.nonNumeric => false
  | none => false

/-- The condition of history.py line 38: `QDate` is present and positive. -/
def qdatePositive (ad : JobAd) : Bool :=
  match ad.qdate with
  | some q => decide (0 < q)
  | none => false

/-- The `buffered_ads` dictionary: an insertion-ordered association list
from bucket key to the pending batch of document ids (Python dicts
preserve insertion order, and `setdefault` appends new keys at the
end). -/
abbrev Buffer := List (Int × List Nat)

/-- `buffered_ads.setdefault(idx, [])`: the current batch for a key
(empty when the key is absent). -/
def bufGetD : Buffer → Int → List Nat
  | [], _ => []
  | (i, l) :: rest, idx => if i = idx then l else bufGetD rest idx

/-- `buffered_ads.setdefault(idx, []).append(d)`: append a document id
to the batch for `idx`, inserting the key at the end when absent. -/
def bufAppend : Buffer → Int → Nat → Buffer
  | [], idx, d => [(idx, [d])]
  | (i, l) :: rest, idx, d =>
    if i = idx then (i, l ++ [d]) :: rest else (i, l) :: bufAppend rest idx d

/-- `buffered_ads[idx] = []`. -/
def bufClear : Buffer → Int → Buffer
  | [], _ => []
  | (i, l) :: rest, idx =>
    if i = idx then (i, []) :: rest else (i, l) :: bufClear rest idx

/-- The document ids contained in a list of (bucket, batch) pairs. -/
def postedIds (b : Buffer) : List Nat := (b.map Prod.snd).flatten

/-- The command-line options `process_schedd` / `process_startd` read
(spider.py argument parser; `processMaxDocuments = 0` means no cap). -/
structure Args where
  readOnly : Bool
  dryRun : Bool
  esFeedScheddHistory : Bool
  esFeedStartdHistory : Bool
  esBunchSize : Nat
  processMaxDocuments : Nat
  deriving DecidableEq, Repr

/-- The mutable state of the worker loop (history.py lines 70-74 plus
the loop-carried variables).  `appended` is instrumentation: every
document id ever appended to a buffer, in order. -/
structure WState (γ : Type) where
  buffered : Buffer
  count : Nat
  cursor : γ
  sentWarnings : Bool
  timedOut : Bool
  posts : Buffer
  postCalls : Nat
  convAlerts : Nat
  timeoutAlert : Bool
  streamErrAlert : Bool
  appended : List Nat

/-- How one iteration of the `for job_ad in history_iter` loop ends:
fall through to the next ad, `break`, or an uncaught exception from
`post_ads` (handled by the `except Exception` clause at history.py
lines 151-158 / 301-308). -/
inductive StepOut where
  | next
  | brk
  | exc
  deriving DecidableEq, Repr

/-- history.py lines 106-107: `buffered_ads.setdefault(idx, [])` and
`ad_list.append(...)`. -/
def bufferAd {γ : Type} (s : WState γ) (idx : Int) (d : Nat) : WState γ :=
  { s with buffered := bufAppend s.buffered idx d,
           appended := s.appended ++ [d] }

/-- history.py lines 109-119: when the batch has reached the configured
size, post it (a failed post raises, modelled as `Sum.inr`) and clear
the batch; the clearing at line 119 happens even when the feed flags
suppress the post itself. -/
def stepFlush {γ : Type} (args : Args) (esFeed : Bool) (postOk : Nat → Bool)
    (idx : Int) (lst : List Nat) (s1 : WState γ) : WState γ ⊕ WState γ :=
  if lst.length = args.esBunchSize then
    if args.readOnly = false ∧ esFeed = true then
      if postOk s1.postCalls then
        Sum.inl { s1 with posts := s1.posts ++ [(idx, lst)],
                          postCalls := s1.postCalls + 1,
                          buffered := bufClear s1.buffered idx }
      else
        -- post_ads raised: the batch stays buffered, the outer
        -- `except Exception` alerts and leaves the loop
        Sum.inr { s1 with postCalls := s1.postCalls + 1,
                          streamErrAlert := true }
    else Sum.inl { s1 with buffered := bufClear s1.buffered idx }
  else Sum.inl s1

/-- history.py lines 121-143: count the record, update the cursor, then
check the deadline and the record cap. -/
def stepAdvance {γ : Type} (args : Args) (timeRem : Nat → Int)
    (upd : γ → JobAd → γ) (s2 : WState γ) (ad : JobAd) :
    WState γ × StepOut :=
  if timeRem (s2.count + 1) < 0 then
    ({ s2 with count := s2.count + 1, cursor := upd s2.cursor ad,
               timedOut := true, timeoutAlert := true }, StepOut.brk)
  else if args.processMaxDocuments ≠ 0 ∧
      s2.count + 1 > args.processMaxDocuments then
    ({ s2 with count := s2.count + 1, cursor := upd s2.cursor ad },
      StepOut.brk)
  else
    ({ s2 with count := s2.count + 1, cursor := upd s2.cursor ad },
      StepOut.next)

/-- One iteration of the worker loop (history.py lines 83-143 and
231-293), generic in the cursor update rule `upd` (lines 125-127 for
the schedd variant, lines 271-277 for the startd variant). -/
def workerStep {γ : Type} (args : Args) (esFeed : Bool) (launchTime : Int)
    (timeRem : Nat → Int) (postOk : Nat → Bool) (upd : γ → JobAd → γ)
    (s : WState γ) (ad : JobAd) : WState γ × StepOut :=
  if ad.convertible = false then
    -- conversion failure: log, alert once per run, `continue`
    if s.sentWarnings = false then
      ({ s with convAlerts := s.convAlerts + 1, sentWarnings := true },
        StepOut.next)
    else (s, StepOut.next)
  else
    match stepFlush args esFeed postOk (get_index (index_time ad launchTime))
        (bufGetD s.buffered (get_index (index_time ad launchTime)) ++
          [ad.docId])
        (bufferAd s (get_index (index_time ad launchTime)) ad.docId) with
    | Sum.inr sExc => (sExc, StepOut.exc)
    | Sum.inl s2 => stepAdvance args timeRem upd s2 ad

/-- The whole `for job_ad in history_iter` loop; the boolean result
records whether the loop was left by an exception. -/
def workerLoop {γ : Type} (args : Args) (esFeed : Bool) (launchTime : Int)
    (timeRem : Nat → Int) (postOk : Nat → Bool) (upd : γ → JobAd → γ)
    (s : WState γ) : List JobAd → WState γ × Bool
  | [] => (s, false)
  | ad :: rest =>
    match workerStep args esFeed launchTime timeRem postOk upd s ad with
    | (s', StepOut.next) =>
      workerLoop args esFeed launchTime timeRem postOk upd s' rest
    | (s', StepOut.brk) => (s', false)
    | (s', StepOut.exc) => (s', true)

/-- The "post the remaining ads" loop (history.py lines 160-170 and
310-320).  Returns the batches posted by this loop, the new post-call
count, and whether a post raised (in which case the exception escapes
the worker). -/
def finalFlush (args : Args) (esFeed : Bool) (postOk : Nat → Bool) :
    Buffer → Nat → Buffer → Buffer × Nat × Bool
  | [], pc, acc => (acc, pc, false)
  | (idx, lst) :: rest, pc, acc =>
    if lst = [] then finalFlush args esFeed postOk rest pc acc
    else
      if args.readOnly = false ∧ esFeed = true then
        if postOk pc then
          finalFlush args esFeed postOk rest (pc + 1) (acc ++ [(idx, lst)])
        else (acc, pc + 1, true)
      else finalFlush args esFeed postOk rest pc acc

/-- Everything observable about one worker run. -/
structure WResult (γ : Type) where
  queryPerformed : Bool
  posts : Buffer
  appended : List Nat
  convAlerts : Nat
  timeoutAlert : Bool
  streamErrAlert : Bool
  timedOut : Bool
  count : Nat
  crashed : Bool
  checkpoint : Option (String × γ)
  ret : γ

/-- The loop state at the top of the `try` block. -/
def initState {γ : Type} (c₀ : γ) : WState γ :=
  { buffered := [], count := 0, cursor := c₀, sentWarnings := false,
    timedOut := false, posts := [], postCalls := 0, convAlerts := 0,
    timeoutAlert := false, streamErrAlert := false, appended := [] }

/-- The shared shape of `process_schedd` and `process_startd`
(history.py lines 44-191 and 193-341): preflight deadline check, query,
per-record loop, final flush, checkpoint emission when not timed out.
`crashed = true` means the final-flush loop raised, so the function
never reached the checkpoint emission nor its `return`. -/
def runWorker {γ : Type} (args : Args) (esFeed : Bool) (launchTime : Int)
    (timeRem0 : Int) (timeRem : Nat → Int) (postOk : Nat → Bool)
    (upd : γ → JobAd → γ) (name : String) (c₀ : γ)
    (history : List JobAd) : WResult γ :=
  if timeRem0 < 0 then
    -- history.py lines 51-59 / 202-210: alert and return unchanged
    { queryPerformed := false, posts := [], appended := [], convAlerts := 0,
      timeoutAlert := true, streamErrAlert := false, timedOut := false,
      count := 0, crashed := false, checkpoint := none, ret := c₀ }
  else
    let hist := if args.dryRun then [] else history
    let s1 :=
      (workerLoop args esFeed launchTime timeRem postOk upd
        (initState c₀) hist).1
    let ff := finalFlush args esFeed postOk s1.buffered s1.postCalls []
    { queryPerformed := args.dryRun = false
      posts := s1.posts ++ ff.1
      appended := s1.appended
      convAlerts := s1.convAlerts
      timeoutAlert := s1.timeoutAlert
      streamErrAlert := s1.streamErrAlert
      timedOut := s1.timedOut
      count := s1.count
      crashed := ff.2.2
      checkpoint :=
        if ff.2.2 then none
        else if s1.timedOut = false then some (name, s1.cursor) else none
      ret := s1.cursor }

/-- The loop state after the `for job_ad in history_iter` loop of a
(non-preflight-exited) run. -/
def loopState {γ : Type} (args : Args) (esFeed : Bool) (launchTime : Int)
    (timeRem : Nat → Int) (postOk : Nat → Bool) (upd : γ → JobAd → γ)
    (c₀ : γ) (history : List JobAd) : WState γ :=
  (workerLoop args esFeed launchTime timeRem postOk upd (initState c₀)
    (if args.dryRun then [] else history)).1

/-- The outcome of the final-flush loop of a (non-preflight-exited)
run. -/
def flushResult {γ : Type} (args : Args) (esFeed : Bool) (launchTime : Int)
    (timeRem : Nat → Int) (postOk : Nat → Bool) (upd : γ → JobAd → γ)
    (c₀ : γ) (history : List JobAd) : Buffer × Nat × Bool :=
  finalFlush args esFeed postOk
    (loopState args esFeed launchTime timeRem postOk upd c₀ history).buffered
    (loopState args esFeed launchTime timeRem postOk upd c₀
      history).postCalls []

theorem runWorker_preflight_eq {γ : Type} (args : Args) (esFeed : Bool)
    (launchTime : Int) (timeRem0 : Int) (timeRem : Nat → Int)
    (postOk : Nat → Bool) (upd : γ → JobAd → γ) (name : String) (c₀ : γ)
    (history : List JobAd) (h0 : timeRem0 < 0) :
    runWorker args esFeed launchTime timeRem0 timeRem postOk upd name c₀
        history =
      { queryPerformed := false, posts := [], appended := [],
        convAlerts := 0, timeoutAlert := true, streamErrAlert := false,
        timedOut := false, count := 0, crashed := false, checkpoint := none,
        ret := c₀ } := by
  unfold runWorker
  rw [if_pos h0]

theorem runWorker_eq {γ : Type} (args : Args) (esFeed : Bool)
    (launchTime : Int) (timeRem0 : Int) (timeRem : Nat → Int)
    (postOk : Nat → Bool) (upd : γ → JobAd → γ) (name : String) (c₀ : γ)
    (history : List JobAd) (h0 : ¬ timeRem0 < 0) :
    runWorker args esFeed launchTime timeRem0 timeRem postOk upd name c₀
        history =
      { queryPerformed := args.dryRun = false
        posts := (loopState args esFeed launchTime timeRem postOk upd c₀
            history).posts ++
          (flushResult args esFeed launchTime timeRem postOk upd c₀
            history).1
        appended := (loopState args esFeed launchTime timeRem postOk upd c₀
          history).appended
        convAlerts := (loopState args esFeed launchTime timeRem postOk upd c₀
          history).convAlerts
        timeoutAlert := (loopState args esFeed launchTime timeRem postOk upd
          c₀ history).timeoutAlert
        streamErrAlert := (loopState args esFeed launchTime timeRem postOk
          upd c₀ history).streamErrAlert
        timedOut := (loopState args esFeed launchTime timeRem postOk upd c₀
          history).timedOut
        count := (loopState args esFeed launchTime timeRem postOk upd c₀
          history).count
        crashed := (flushResult args esFeed launchTime timeRem postOk upd c₀
          history).2.2
        checkpoint :=
          if (flushResult args esFeed launchTime timeRem postOk upd c₀
              history).2.2 then none
          else if (loopState args esFeed launchTime timeRem postOk upd c₀
              history).timedOut = false then
            some (name, (loopState args esFeed launchTime timeRem postOk upd
              c₀ history).cursor)
          else none
        ret := (loopState args esFeed launchTime timeRem postOk upd c₀
          history).cursor } := by
  unfold runWorker loopState flushResult
  rw [if_neg h0]
  rfl

/-- history.py lines 123-127: the schedd variant's cursor update — keep
the running maximum of `EnteredCurrentStatus`. -/
def scheddUpdate (last : Int) (ad : JobAd) : Int :=
  if ad.enteredCurrentStatus > last then ad.enteredCurrentStatus else last

/-- `process_schedd` (history.py lines 44-191).  The history list stands
for the ads yielded by `schedd.history(history_query, [], ...)`. -/
def process_schedd (args : Args) (launchTime : Int) (timeRem0 : Int)
    (timeRem : Nat → Int) (postOk : Nat → Bool) (name : String)
    (lastCompletion : Int) (history : List JobAd) : WResult Int :=
  runWorker args args.esFeedScheddHistory launchTime timeRem0 timeRem postOk
    scheddUpdate name lastCompletion history

/-- The startd variant's composite cursor: the `since` dictionary of
history.py lines 199-200 and 274-277. -/
structure Since where
  globalJobId : String
  enteredCurrentStatus : Int
  deriving DecidableEq, Repr

/-- history.py lines 271-277: replace the composite cursor only when the
record's `EnteredCurrentStatus` is strictly greater (the loop variable
`last_completion` is initialised to `since["EnteredCurrentStatus"]` at
line 199 and always written together with `since`). -/
def startdUpdate (s : Since) (ad : JobAd) : Since :=
  if ad.enteredCurrentStatus > s.enteredCurrentStatus then
    { globalJobId := ad.globalJobId,
      enteredCurrentStatus := ad.enteredCurrentStatus }
  else s

/-- `process_startd` (history.py lines 193-341). -/
def process_startd (args : Args) (launchTime : Int) (timeRem0 : Int)
    (timeRem : Nat → Int) (postOk : Nat → Bool) (machine : String)
    (since₀ : Since) (history : List JobAd) : WResult Since :=
  runWorker args args.esFeedStartdHistory launchTime timeRem0 timeRem postOk
    startdUpdate machine since₀ history

/-!  The schedd history query expression (history.py line 63). -/

/-- The comparison operators a history constraint expression may use. -/
inductive CmpOp where
  | ge
  | gt
  deriving DecidableEq, Repr

/-- A history constraint of the shape built at history.py line 63:
a single comparison between an attribute and an integer bound. -/
structure HistExpr where
  op : CmpOp
  attr : String
  bound : Int
  deriving DecidableEq, Repr

/-- Attribute lookup for evaluating a history constraint against an ad. -/
def adAttr (ad : JobAd) (attr : String) : Option Int :=
  if attr = "EnteredCurrentStatus" then some ad.enteredCurrentStatus
  else if attr = "QDate" then ad.qdate
  else none

/-- Classad evaluation of a history constraint: an undefined attribute
never matches. -/
def evalHistExpr (e : HistExpr) (ad : JobAd) : Bool :=
  match adAttr ad e.attr with
  | some v =>
    match e.op with
    | CmpOp.ge => decide (v ≥ e.bound)
    | CmpOp.gt => decide (v > e.bound)
  | none => false

/-- history.py line 63: `( EnteredCurrentStatus >= int(last_completion) )`. -/
def schedd_history_query (lastCompletion : Int) : HistExpr :=
  { op := CmpOp.ge, attr := "EnteredCurrentStatus", bound := lastCompletion }

/-- history.py line 200: the startd `since` stop expression
`(GlobalJobId == ...) && (EnteredCurrentStatus == ...)`, true exactly on
the record matching the composite cursor on both fields. -/
def since_expr (s : Since) (ad : JobAd) : Bool :=
  decide (ad.globalJobId = s.globalJobId) &&
    decide (ad.enteredCurrentStatus = s.enteredCurrentStatus)

/-- Modelled from the spec: the startd history selection induced by the
`since` argument of `startd.history` (the htcondor bindings are not
under `src/`).  Per the spec, variant B selects records whose ordering
field is greater than the cursor timestamp, or equal with a different
entity id; the record matching the cursor on both fields is excluded. -/
def startd_selects (s : Since) (ad : JobAd) : Bool :=
  decide (ad.enteredCurrentStatus > s.enteredCurrentStatus) ||
    (decide (ad.enteredCurrentStatus = s.enteredCurrentStatus) &&
      decide (ad.globalJobId ≠ s.globalJobId))

/-!  The checkpoint store (history.py lines 344-360). -/

/-- A persisted cursor: a scalar timestamp (schedd variant) or a
composite (entity id, timestamp) pair (startd variant). -/
inductive CheckpointVal where
  | ts (t : Int)
  | composite (s : Since)
  deriving DecidableEq, Repr

/-- The persisted mapping source-id → cursor. -/
abbrev CheckpointMap := List (String × CheckpointVal)

/-- What `checkpoint.json` may hold: a complete JSON document for a
mapping, a truncated prefix of the serialization of a mapping (an
in-place rewrite that stopped partway), or other non-JSON bytes. -/
inductive StoreContent where
  | valid (m : CheckpointMap)
  | truncated (m : CheckpointMap)
  | malformed
  deriving DecidableEq, Repr

/-- The state of the checkpoint file on disk. -/
inductive FileState where
  | absent
  | unreadable
  | content (c : StoreContent)
  deriving DecidableEq, Repr

/-- The Python exception classes relevant here: `IOError` (= `OSError`,
covering a missing or unreadable file) and `ValueError` (covering
`json.JSONDecodeError`). -/
inductive PyExc where
  | ioError
  | valueError
  deriving DecidableEq, Repr

/-- `open("checkpoint.json", "r")`: raises `IOError` when the file is
absent (`FileNotFoundError`) or unreadable (`PermissionError`). -/
def openRead : FileState → Except PyExc StoreContent
  | FileState.absent => Except.error PyExc.ioError
  | FileState.unreadable => Except.error PyExc.ioError
  | FileState.content c => Except.ok c

/-- `json.load(fd)`: raises `json.JSONDecodeError` (a `ValueError`) on a
truncated or otherwise malformed document. -/
def jsonLoad : StoreContent → Except PyExc CheckpointMap
  | StoreContent.valid m => Except.ok m
  | StoreContent.truncated _ => Except.error PyExc.valueError
  | StoreContent.malformed => Except.error PyExc.valueError

/-- `history.load_checkpoint` (history.py lines 344-351): try to open
and parse `checkpoint.json`; only `IOError` is caught and turned into an
empty mapping. -/
def load_checkpoint (fs : FileState) : Except PyExc CheckpointMap :=
  match (openRead fs).bind jsonLoad with
  | Except.error PyExc.ioError => Except.ok []
  | r => r

/-- `checkpoint[name] = completion_date`: replace the value of an
existing key, or append the key at the end. -/
def setKey : CheckpointMap → String → CheckpointVal → CheckpointMap
  | [], k, v => [(k, v)]
  | (k', v') :: rest, k, v =>
    if k' = k then (k', v) :: rest else (k', v') :: setKey rest k v

/-- Whether the `json.dump` into the truncated file runs to completion
or the process/write fails partway through. -/
inductive WriteOutcome where
  | complete
  | failPartway
  deriving DecidableEq, Repr

/-- `history.update_checkpoint` (history.py lines 354-360): re-load the
store, set one key, then `open("checkpoint.json", "w")` — which
truncates the file in place — and `json.dump` the whole mapping.
Returns the resulting file state and the exception, if any, that
escaped. -/
def update_checkpoint (fs : FileState) (name : String) (cd : CheckpointVal)
    (w : WriteOutcome) : FileState × Option PyExc :=
  match load_checkpoint fs with
  | Except.error e => (fs, some e)
  | Except.ok cp =>
    let cp2 := setKey cp name cd
    match w with
    | WriteOutcome.complete =>
      (FileState.content (StoreContent.valid cp2), none)
    | WriteOutcome.failPartway =>
      (FileState.content (StoreContent.truncated cp2), some PyExc.ioError)

/-!  The Harvest Coordinator's per-task wait (history.py lines 425-430). -/

/-- Modelled from the spec: `utils.time_remaining` lives in
`src/htcondor_es/utils.py`, which is not part of this repository
snapshot.  Per the spec, every remaining-time computation is relative
to the single global deadline fixed at orchestrator start, so the
remaining global time is the deadline budget minus the elapsed time. -/
def time_remaining (budget elapsed : Int) : Int := budget - elapsed

/-- history.py line 430: the timeout passed to `future.get` is
`utils.time_remaining(starttime) + 10`. -/
def per_task_wait_timeout (budget elapsed : Int) : Int :=
  time_remaining budget elapsed + 10

/-- The per-task wait timeout in the spec's words (section 4.1):
`max(10s, remaining-global-time)`. -/
def spec_per_task_wait_timeout (budget elapsed : Int) : Int :=
  max 10 (time_remaining budget elapsed)

/-!  ## Helper lemmas about buffers and permutations -/

theorem postedIds_append (a b : Buffer) :
    postedIds (a ++ b) = postedIds a ++ postedIds b := by
  simp [postedIds]

theorem postedIds_cons (i : Int) (l : List Nat) (b : Buffer) :
    postedIds ((i, l) :: b) = l ++ postedIds b := by
  simp [postedIds]

theorem bufGetD_bufAppend (b : Buffer) (idx : Int) (d : Nat) :
    bufGetD (bufAppend b idx d) idx = bufGetD b idx ++ [d] := by
  induction b with
  | nil => simp [bufAppend, bufGetD]
  | cons hd tl ih =>
    obtain ⟨i, l⟩ := hd
    by_cases h : i = idx
    · simp [bufAppend, bufGetD, h]
    · simp [bufAppend, bufGetD, h, ih]

theorem postedIds_bufAppend_perm (b : Buffer) (idx : Int) (d : Nat) :
    List.Perm (postedIds (bufAppend b idx d)) (d :: postedIds b) := by
  induction b with
  | nil => simp [bufAppend, postedIds]
  | cons hd tl ih =>
    obtain ⟨i, l⟩ := hd
    by_cases h : i = idx
    · simp only [bufAppend, if_pos h, postedIds_cons, List.append_assoc,
        List.singleton_append]
      exact List.perm_middle
    · simp only [bufAppend, if_neg h, postedIds_cons]
      exact (ih.append_left l).trans List.perm_middle

theorem postedIds_bufClear_perm (b : Buffer) (idx : Int) :
    List.Perm (postedIds b) (bufGetD b idx ++ postedIds (bufClear b idx)) := by
  induction b with
  | nil => simp [bufClear, bufGetD, postedIds]
  | cons hd tl ih =>
    obtain ⟨i, l⟩ := hd
    by_cases h : i = idx
    · simp [bufClear, bufGetD, postedIds_cons, h]
    · simp only [bufClear, if_neg h, bufGetD, postedIds_cons]
      exact (ih.append_left l).trans
        (List.perm_append_comm_assoc l (bufGetD tl idx)
          (postedIds (bufClear tl idx)))

theorem perm_snoc_of_perm {p b a : List Nat} (d : Nat)
    (h : List.Perm (p ++ b) a) : List.Perm (p ++ (d :: b)) (a ++ [d]) :=
  List.perm_middle.trans ((h.cons d).trans (List.perm_append_singleton d a).symm)

/-- The buffer invariant: everything ever appended is either already
posted or still buffered (as a multiset of document ids). -/
def BufInv {γ : Type} (s : WState γ) : Prop :=
  List.Perm (postedIds s.posts ++ postedIds s.buffered) s.appended

/-- `stepFlush` after `bufferAd` preserves the buffer invariant (the
batch list handed to `stepFlush` is the dictionary entry produced by
the append) — in both the normal and the raising outcome. -/
theorem bufInv_stepFlush {γ : Type} (args : Args) (esFeed : Bool)
    (postOk : Nat → Bool) (s : WState γ) (idx : Int) (d : Nat)
    (hro : args.readOnly = false) (hfeed : esFeed = true)
    (hinv : BufInv s) :
    BufInv ((stepFlush args esFeed postOk idx (bufGetD s.buffered idx ++ [d])
        (bufferAd s idx d)).elim id id) := by
  have hb1 : List.Perm (postedIds (bufAppend s.buffered idx d))
      (d :: postedIds s.buffered) := postedIds_bufAppend_perm _ _ _
  have hbase : BufInv (bufferAd s idx d) := by
    unfold BufInv bufferAd
    exact (hb1.append_left _).trans (perm_snoc_of_perm d hinv)
  unfold stepFlush
  by_cases hlen :
      (bufGetD s.buffered idx ++ [d]).length = args.esBunchSize
  · rw [if_pos hlen, if_pos ⟨hro, hfeed⟩]
    by_cases hok : postOk (bufferAd s idx d).postCalls = true
    · rw [if_pos hok]
      show BufInv _
      unfold BufInv
      simp only [bufferAd, postedIds_append]
      have hclear : List.Perm (postedIds (bufAppend s.buffered idx d))
          ((bufGetD s.buffered idx ++ [d]) ++
            postedIds (bufClear (bufAppend s.buffered idx d) idx)) := by
        have := postedIds_bufClear_perm (bufAppend s.buffered idx d) idx
        rwa [bufGetD_bufAppend] at this
      have step1 : List.Perm
          ((bufGetD s.buffered idx ++ [d]) ++
            postedIds (bufClear (bufAppend s.buffered idx d) idx))
          (d :: postedIds s.buffered) := hclear.symm.trans hb1
      have hmain : List.Perm
          (postedIds s.posts ++
            ((bufGetD s.buffered idx ++ [d]) ++
              postedIds (bufClear (bufAppend s.buffered idx d) idx)))
          (s.appended ++ [d]) :=
        (step1.append_left _).trans (perm_snoc_of_perm d hinv)
      refine List.Perm.trans ?_ hmain
      simp [postedIds, List.append_assoc]
    · rw [if_neg hok]
      exact hbase
  · rw [if_neg hlen]
    exact hbase

/-- `stepAdvance` does not touch the buffers. -/
theorem bufInv_stepAdvance {γ : Type} (args : Args) (timeRem : Nat → Int)
    (upd : γ → JobAd → γ) (s2 : WState γ) (ad : JobAd) (hinv : BufInv s2) :
    BufInv (stepAdvance args timeRem upd s2 ad).1 := by
  unfold stepAdvance
  by_cases h1 : timeRem (s2.count + 1) < 0
  · rw [if_pos h1]; exact hinv
  · rw [if_neg h1]
    by_cases h2 : args.processMaxDocuments ≠ 0 ∧
        s2.count + 1 > args.processMaxDocuments
    · rw [if_pos h2]; exact hinv
    · rw [if_neg h2]; exact hinv

theorem bufInv_workerStep {γ : Type} (args : Args) (esFeed : Bool)
    (launchTime : Int) (timeRem : Nat → Int) (postOk : Nat → Bool)
    (upd : γ → JobAd → γ) (s : WState γ) (ad : JobAd)
    (hro : args.readOnly = false) (hfeed : esFeed = true)
    (hinv : BufInv s) :
    BufInv (workerStep args esFeed launchTime timeRem postOk upd s ad).1 := by
  unfold workerStep
  by_cases hconv : ad.convertible = false
  · rw [if_pos hconv]
    by_cases hw : s.sentWarnings = false
    · rw [if_pos hw]; exact hinv
    · rw [if_neg hw]; exact hinv
  · rw [if_neg hconv]
    have hflush := bufInv_stepFlush args esFeed postOk s
      (get_index (index_time ad launchTime)) ad.docId hro hfeed hinv
    rcases hout : stepFlush args esFeed postOk
        (get_index (index_time ad launchTime))
        (bufGetD s.buffered (get_index (index_time ad launchTime)) ++
          [ad.docId])
        (bufferAd s (get_index (index_time ad launchTime)) ad.docId)
      with s2 | sExc
    · rw [hout] at hflush
      exact bufInv_stepAdvance args timeRem upd s2 ad hflush
    · rw [hout] at hflush
      exact hflush

theorem bufInv_workerLoop {γ : Type} (args : Args) (esFeed : Bool)
    (launchTime : Int) (timeRem : Nat → Int) (postOk : Nat → Bool)
    (upd : γ → JobAd → γ) (hro : args.readOnly = false)
    (hfeed : esFeed = true) :
    ∀ (hist : List JobAd) (s : WState γ), BufInv s →
      BufInv (workerLoop args esFeed launchTime timeRem postOk upd s hist).1 := by
  intro hist
  induction hist with
  | nil => intro s hinv; exact hinv
  | cons ad rest ih =>
    intro s hinv
    have hstep := bufInv_workerStep args esFeed launchTime timeRem postOk upd
      s ad hro hfeed hinv
    unfold workerLoop
    rcases hout : (workerStep args esFeed launchTime timeRem postOk upd s ad)
      with ⟨s', o⟩
    rw [hout] at hstep
    cases o with
    | next => exact ih s' hstep
    | brk => exact hstep
    | exc => exact hstep

theorem finalFlush_perm (args : Args) (esFeed : Bool) (postOk : Nat → Bool)
    (hro : args.readOnly = false) (hfeed : esFeed = true) :
    ∀ (b : Buffer) (pc : Nat) (acc : Buffer),
      (finalFlush args esFeed postOk b pc acc).2.2 = false →
      List.Perm (postedIds (finalFlush args esFeed postOk b pc acc).1)
        (postedIds acc ++ postedIds b) := by
  intro b
  induction b with
  | nil => intro pc acc _; simp [finalFlush, postedIds]
  | cons hd tl ih =>
    intro pc acc hcr
    obtain ⟨idx, lst⟩ := hd
    by_cases hl : lst = []
    · rw [finalFlush, if_pos hl] at hcr ⊢
      refine (ih pc acc hcr).trans ?_
      simp [postedIds_cons, hl]
    · rw [finalFlush, if_neg hl, if_pos ⟨hro, hfeed⟩] at hcr ⊢
      by_cases hok : postOk pc = true
      · rw [if_pos hok] at hcr ⊢
        refine (ih (pc + 1) (acc ++ [(idx, lst)]) hcr).trans ?_
        simp [postedIds_append, postedIds_cons, postedIds, List.append_assoc]
      · rw [if_neg hok] at hcr
        simp at hcr

theorem finalFlush_no_crash (args : Args) (esFeed : Bool)
    (postOk : Nat → Bool) (hpost : ∀ n, postOk n = true) :
    ∀ (b : Buffer) (pc : Nat) (acc : Buffer),
      (finalFlush args esFeed postOk b pc acc).2.2 = false := by
  intro b
  induction b with
  | nil => intro pc acc; simp [finalFlush]
  | cons hd tl ih =>
    intro pc acc
    obtain ⟨idx, lst⟩ := hd
    by_cases hl : lst = []
    · rw [finalFlush, if_pos hl]; exact ih pc acc
    · rw [finalFlush, if_neg hl]
      by_cases hfl : args.readOnly = false ∧ esFeed = true
      · rw [if_pos hfl, if_pos (hpost pc)]; exact ih _ _
      · rw [if_neg hfl]; exact ih pc acc

/-!  ## Step and loop characterisation under healthy oracles -/

theorem workerStep_skip_new {γ : Type} (args : Args) (esFeed : Bool)
    (launchTime : Int) (timeRem : Nat → Int) (postOk : Nat → Bool)
    (upd : γ → JobAd → γ) (s : WState γ) (ad : JobAd)
    (hconv : ad.convertible = false) (hw : s.sentWarnings = false) :
    workerStep args esFeed launchTime timeRem postOk upd s ad
      = ({ s with convAlerts := s.convAlerts + 1, sentWarnings := true },
          StepOut.next) := by
  unfold workerStep
  rw [if_pos hconv, if_pos hw]

theorem workerStep_skip_old {γ : Type} (args : Args) (esFeed : Bool)
    (launchTime : Int) (timeRem : Nat → Int) (postOk : Nat → Bool)
    (upd : γ → JobAd → γ) (s : WState γ) (ad : JobAd)
    (hconv : ad.convertible = false) (hw : s.sentWarnings = true) :
    workerStep args esFeed launchTime timeRem postOk upd s ad
      = (s, StepOut.next) := by
  unfold workerStep
  rw [if_pos hconv, if_neg (by simp [hw])]

theorem stepFlush_good {γ : Type} (args : Args) (esFeed : Bool)
    (postOk : Nat → Bool) (hpost : ∀ n, postOk n = true) (idx : Int)
    (lst : List Nat) (s1 : WState γ) :
    ∃ B P pc, stepFlush args esFeed postOk idx lst s1
      = Sum.inl { s1 with buffered := B, posts := P, postCalls := pc } := by
  unfold stepFlush
  by_cases hlen : lst.length = args.esBunchSize
  · rw [if_pos hlen]
    by_cases hfl : args.readOnly = false ∧ esFeed = true
    · rw [if_pos hfl, if_pos (hpost _)]
      exact ⟨_, _, _, rfl⟩
    · rw [if_neg hfl]
      exact ⟨_, _, _, rfl⟩
  · rw [if_neg hlen]
    exact ⟨s1.buffered, s1.posts, s1.postCalls, rfl⟩

theorem stepAdvance_good {γ : Type} (args : Args) (timeRem : Nat → Int)
    (upd : γ → JobAd → γ) (htime : ∀ n, 0 ≤ timeRem n) (s2 : WState γ)
    (ad : JobAd) :
    stepAdvance args timeRem upd s2 ad
      = ({ s2 with count := s2.count + 1, cursor := upd s2.cursor ad },
          if args.processMaxDocuments ≠ 0 ∧
              s2.count + 1 > args.processMaxDocuments
          then StepOut.brk else StepOut.next) := by
  unfold stepAdvance
  rw [if_neg (not_lt.mpr (htime _))]
  by_cases hcap : args.processMaxDocuments ≠ 0 ∧
      s2.count + 1 > args.processMaxDocuments
  · rw [if_pos hcap, if_pos hcap]
  · rw [if_neg hcap, if_neg hcap]

/-- With healthy oracles (no deadline breach, no post failure), a
convertible record is buffered, counted and cursor-folded, and the loop
continues unless the record cap is exceeded. -/
theorem workerStep_conv_good {γ : Type} (args : Args) (esFeed : Bool)
    (launchTime : Int) (timeRem : Nat → Int) (postOk : Nat → Bool)
    (upd : γ → JobAd → γ) (s : WState γ) (ad : JobAd)
    (hconv : ad.convertible = true) (htime : ∀ n, 0 ≤ timeRem n)
    (hpost : ∀ n, postOk n = true) :
    ∃ B P pc, workerStep args esFeed launchTime timeRem postOk upd s ad
      = ({ s with
            buffered := B, posts := P, postCalls := pc,
            appended := s.appended ++ [ad.docId], count := s.count + 1,
            cursor := upd s.cursor ad },
          if args.processMaxDocuments ≠ 0 ∧
              s.count + 1 > args.processMaxDocuments
          then StepOut.brk else StepOut.next) := by
  unfold workerStep
  rw [if_neg (by simp [hconv])]
  obtain ⟨B, P, pc, hflush⟩ := stepFlush_good args esFeed postOk hpost
    (get_index (index_time ad launchTime))
    (bufGetD s.buffered (get_index (index_time ad launchTime)) ++ [ad.docId])
    (bufferAd s (get_index (index_time ad launchTime)) ad.docId)
  rw [hflush]
  dsimp only
  rw [stepAdvance_good args timeRem upd htime]
  exact ⟨B, P, pc, rfl⟩

/-- The worker loop with no record cap and healthy oracles: no record
breaks the loop, the cursor folds over the convertible records, every
convertible record's document id is appended, skips are counted out of
the tally, and at most one conversion alert fires. -/
theorem workerLoop_nocap {γ : Type} (args : Args) (esFeed : Bool)
    (launchTime : Int) (timeRem : Nat → Int) (postOk : Nat → Bool)
    (upd : γ → JobAd → γ) (htime : ∀ n, 0 ≤ timeRem n)
    (hpost : ∀ n, postOk n = true)
    (hcap : args.processMaxDocuments = 0) :
    ∀ (hist : List JobAd) (s : WState γ),
      (workerLoop args esFeed launchTime timeRem postOk upd s hist).2
          = false ∧
      (workerLoop args esFeed launchTime timeRem postOk upd s
          hist).1.timedOut = s.timedOut ∧
      (workerLoop args esFeed launchTime timeRem postOk upd s hist).1.cursor
        = List.foldl upd s.cursor (hist.filter JobAd.convertible) ∧
      (workerLoop args esFeed launchTime timeRem postOk upd s
          hist).1.appended
        = s.appended ++ ((hist.filter JobAd.convertible).map JobAd.docId) ∧
      (workerLoop args esFeed launchTime timeRem postOk upd s hist).1.count
        = s.count + (hist.filter JobAd.convertible).length ∧
      (workerLoop args esFeed launchTime timeRem postOk upd s
          hist).1.sentWarnings
        = (s.sentWarnings || hist.any fun ad => !ad.convertible) ∧
      (workerLoop args esFeed launchTime timeRem postOk upd s
          hist).1.convAlerts
        = s.convAlerts +
            (if s.sentWarnings = false ∧
                (hist.any fun ad => !ad.convertible) = true
             then 1 else 0) := by
  intro hist
  induction hist with
  | nil =>
    intro s
    refine ⟨rfl, rfl, rfl, by simp [workerLoop], by simp [workerLoop],
      by simp [workerLoop], by simp [workerLoop]⟩
  | cons ad rest ih =>
    intro s
    by_cases hconv : ad.convertible = true
    · obtain ⟨B, P, pc, hstep⟩ := workerStep_conv_good args esFeed launchTime
        timeRem postOk upd s ad hconv htime hpost
      rw [show (if args.processMaxDocuments ≠ 0 ∧
            s.count + 1 > args.processMaxDocuments
          then StepOut.brk else StepOut.next) = StepOut.next by
        simp [hcap]] at hstep
      unfold workerLoop
      rw [hstep]
      have hrec := ih { s with
        buffered := B, posts := P, postCalls := pc,
        appended := s.appended ++ [ad.docId], count := s.count + 1,
        cursor := upd s.cursor ad }
      refine ⟨hrec.1, hrec.2.1, ?_, ?_, ?_, ?_, ?_⟩
      · rw [hrec.2.2.1, List.filter_cons_of_pos hconv, List.foldl_cons]
      · rw [hrec.2.2.2.1, List.filter_cons_of_pos hconv]
        simp
      · have hcnt2 : ({ s with
            buffered := B, posts := P, postCalls := pc,
            appended := s.appended ++ [ad.docId], count := s.count + 1,
            cursor := upd s.cursor ad } : WState γ).count = s.count + 1 := rfl
        rw [hrec.2.2.2.2.1, hcnt2, List.filter_cons_of_pos hconv]
        simp only [List.length_cons]
        omega
      · rw [hrec.2.2.2.2.2.1]
        simp [hconv]
      · rw [hrec.2.2.2.2.2.2]
        simp [hconv]
    · have hconv' : ad.convertible = false := by
        cases h : ad.convertible
        · rfl
        · exact absurd h hconv
      by_cases hw : s.sentWarnings = false
      · unfold workerLoop
        rw [workerStep_skip_new args esFeed launchTime timeRem postOk upd s
          ad hconv' hw]
        have hrec := ih { s with
          convAlerts := s.convAlerts + 1, sentWarnings := true }
        refine ⟨hrec.1, hrec.2.1, ?_, ?_, ?_, ?_, ?_⟩
        · rw [hrec.2.2.1, List.filter_cons_of_neg (by simp [hconv'])]
        · rw [hrec.2.2.2.1, List.filter_cons_of_neg (by simp [hconv'])]
        · rw [hrec.2.2.2.2.1, List.filter_cons_of_neg (by simp [hconv'])]
        · rw [hrec.2.2.2.2.2.1]
          simp [hconv', hw]
        · rw [hrec.2.2.2.2.2.2]
          simp [hconv', hw]
      · have hw' : s.sentWarnings = true := by
          cases h : s.sentWarnings
          · exact absurd h hw
          · rfl
        unfold workerLoop
        rw [workerStep_skip_old args esFeed launchTime timeRem postOk upd s
          ad hconv' hw']
        have hrec := ih s
        refine ⟨hrec.1, hrec.2.1, ?_, ?_, ?_, ?_, ?_⟩
        · rw [hrec.2.2.1, List.filter_cons_of_neg (by simp [hconv'])]
        · rw [hrec.2.2.2.1, List.filter_cons_of_neg (by simp [hconv'])]
        · rw [hrec.2.2.2.2.1, List.filter_cons_of_neg (by simp [hconv'])]
        · rw [hrec.2.2.2.2.2.1]
          simp [hw']
        · rw [hrec.2.2.2.2.2.2]
          simp [hw']

/-- The worker loop with a record cap, all-convertible records and
healthy oracles: processing stops — without a timeout — after
`cap + 1` records (the check `count > cap` runs only after the record
has been fully processed), and the cursor folds over exactly that
prefix. -/
theorem workerLoop_cap {γ : Type} (args : Args) (esFeed : Bool)
    (launchTime : Int) (timeRem : Nat → Int) (postOk : Nat → Bool)
    (upd : γ → JobAd → γ) (htime : ∀ n, 0 ≤ timeRem n)
    (hpost : ∀ n, postOk n = true)
    (hcap : args.processMaxDocuments ≠ 0) :
    ∀ (hist : List JobAd) (s : WState γ),
      (∀ ad ∈ hist, ad.convertible = true) →
      s.count ≤ args.processMaxDocuments →
      (workerLoop args esFeed launchTime timeRem postOk upd s hist).2
          = false ∧
      (workerLoop args esFeed launchTime timeRem postOk upd s
          hist).1.timedOut = s.timedOut ∧
      (workerLoop args esFeed launchTime timeRem postOk upd s hist).1.count
        = min (args.processMaxDocuments + 1) (s.count + hist.length) ∧
      (workerLoop args esFeed launchTime timeRem postOk upd s hist).1.cursor
        = List.foldl upd s.cursor
            (hist.take (args.processMaxDocuments + 1 - s.count)) ∧
      (workerLoop args esFeed launchTime timeRem postOk upd s
          hist).1.appended
        = s.appended ++
            ((hist.take (args.processMaxDocuments + 1 - s.count)).map
              JobAd.docId) := by
  intro hist
  induction hist with
  | nil =>
    intro s _ hle
    refine ⟨rfl, rfl, by simp [workerLoop]; omega, by simp [workerLoop],
      by simp [workerLoop]⟩
  | cons ad rest ih =>
    intro s hconv hle
    obtain ⟨B, P, pc, hstep⟩ := workerStep_conv_good args esFeed launchTime
      timeRem postOk upd s ad (hconv ad (List.mem_cons_self ad rest)) htime
      hpost
    by_cases hcnt : s.count = args.processMaxDocuments
    · rw [show (if args.processMaxDocuments ≠ 0 ∧
            s.count + 1 > args.processMaxDocuments
          then StepOut.brk else StepOut.next) = StepOut.brk by
        simp [hcap, hcnt]] at hstep
      unfold workerLoop
      rw [hstep]
      have htake : args.processMaxDocuments + 1 - s.count = 1 := by omega
      refine ⟨rfl, rfl, ?_, ?_, ?_⟩
      · dsimp only [List.length_cons]
        rw [hcnt]
        omega
      · rw [htake]
        simp [List.take_succ_cons]
      · rw [htake]
        simp [List.take_succ_cons]
    · have hlt : s.count < args.processMaxDocuments := by omega
      rw [show (if args.processMaxDocuments ≠ 0 ∧
            s.count + 1 > args.processMaxDocuments
          then StepOut.brk else StepOut.next) = StepOut.next by
        simp; omega] at hstep
      unfold workerLoop
      rw [hstep]
      have hrec := ih { s with
        buffered := B, posts := P, postCalls := pc,
        appended := s.appended ++ [ad.docId], count := s.count + 1,
        cursor := upd s.cursor ad }
        (fun a ha => hconv a (List.mem_cons_of_mem ad ha)) (by simp; omega)
      have htake : args.processMaxDocuments + 1 - s.count
          = (args.processMaxDocuments - s.count) + 1 := by omega
      have htake2 : args.processMaxDocuments + 1 - (s.count + 1)
          = args.processMaxDocuments - s.count := by omega
      refine ⟨hrec.1, hrec.2.1, ?_, ?_, ?_⟩
      · rw [hrec.2.2.1]
        dsimp only [List.length_cons]
        omega
      · rw [hrec.2.2.2.1]
        simp only [htake2]
        rw [htake, List.take_succ_cons, List.foldl_cons]
      · rw [hrec.2.2.2.2]
        simp only [htake2]
        rw [htake, List.take_succ_cons]
        simp

/-- The checkpoint-after-flush property of one generic worker run:
if the final flush raises, the checkpoint is never enqueued; and
whenever a checkpoint is enqueued, the posted document ids are exactly
(as a multiset) the ids that were ever buffered during the run. -/
theorem runWorker_checkpoint_flush {γ : Type} (args : Args) (esFeed : Bool)
    (launchTime : Int) (timeRem0 : Int) (timeRem : Nat → Int)
    (postOk : Nat → Bool) (upd : γ → JobAd → γ) (name : String) (c₀ : γ)
    (history : List JobAd) (hro : args.readOnly = false)
    (hfeed : esFeed = true) :
    ((runWorker args esFeed launchTime timeRem0 timeRem postOk upd name c₀
        history).crashed = true →
      (runWorker args esFeed launchTime timeRem0 timeRem postOk upd name c₀
        history).checkpoint = none) ∧
    (∀ p, (runWorker args esFeed launchTime timeRem0 timeRem postOk upd name
        c₀ history).checkpoint = some p →
      List.Perm
        (postedIds (runWorker args esFeed launchTime timeRem0 timeRem postOk
          upd name c₀ history).posts)
        (runWorker args esFeed launchTime timeRem0 timeRem postOk upd name c₀
          history).appended) := by
  by_cases h0 : timeRem0 < 0
  · rw [runWorker_preflight_eq args esFeed launchTime timeRem0 timeRem postOk
      upd name c₀ history h0]
    constructor
    · intro _; rfl
    · intro p hp; cases hp
  · rw [runWorker_eq args esFeed launchTime timeRem0 timeRem postOk upd name
      c₀ history h0]
    constructor
    · intro hcr
      dsimp only at hcr ⊢
      rw [hcr]
      rfl
    · intro p hp
      dsimp only at hp ⊢
      cases hcr : (flushResult args esFeed launchTime timeRem postOk upd c₀
          history).2.2 with
      | true =>
        rw [hcr] at hp
        simp at hp
      | false =>
        have hinv0 : BufInv (initState (γ := γ) c₀) := by
          simp [BufInv, initState, postedIds]
        have hinv : BufInv
            (loopState args esFeed launchTime timeRem postOk upd c₀
              history) :=
          bufInv_workerLoop args esFeed launchTime timeRem postOk upd hro
            hfeed _ (initState c₀) hinv0
        have hcr2 : (finalFlush args esFeed postOk
            (loopState args esFeed launchTime timeRem postOk upd c₀
              history).buffered
            (loopState args esFeed launchTime timeRem postOk upd c₀
              history).postCalls []).2.2 = false := hcr
        have hffp := finalFlush_perm args esFeed postOk hro hfeed
          (loopState args esFeed launchTime timeRem postOk upd c₀
            history).buffered
          (loopState args esFeed launchTime timeRem postOk upd c₀
            history).postCalls [] hcr2
        rw [postedIds_append]
        refine ((List.Perm.append_left _ hffp).trans ?_).trans hinv
        simp [postedIds]

/-!  ## Whole-run characterisation under healthy oracles -/

theorem loopState_eq {γ : Type} (args : Args) (esFeed : Bool)
    (launchTime : Int) (timeRem : Nat → Int) (postOk : Nat → Bool)
    (upd : γ → JobAd → γ) (c₀ : γ) (history : List JobAd)
    (hdry : args.dryRun = false) :
    loopState args esFeed launchTime timeRem postOk upd c₀ history
      = (workerLoop args esFeed launchTime timeRem postOk upd (initState c₀)
          history).1 := by
  unfold loopState
  rw [hdry]
  rfl

/-- A full run with healthy oracles, live flags and no record cap: it
does not crash nor time out, fires one conversion alert exactly when
some record fails conversion, buffers and posts exactly the documents
of the convertible records, counts them, and emits a checkpoint whose
cursor is the fold of the update rule over the convertible records. -/
theorem runWorker_nocap_good {γ : Type} (args : Args) (esFeed : Bool)
    (launchTime : Int) (timeRem0 : Int) (timeRem : Nat → Int)
    (postOk : Nat → Bool) (upd : γ → JobAd → γ) (name : String) (c₀ : γ)
    (history : List JobAd) (hro : args.readOnly = false)
    (hfeed : esFeed = true) (hdry : args.dryRun = false) (h0 : 0 ≤ timeRem0)
    (htime : ∀ n, 0 ≤ timeRem n) (hpost : ∀ n, postOk n = true)
    (hcap : args.processMaxDocuments = 0) :
    (runWorker args esFeed launchTime timeRem0 timeRem postOk upd name c₀
        history).crashed = false ∧
    (runWorker args esFeed launchTime timeRem0 timeRem postOk upd name c₀
        history).timedOut = false ∧
    (runWorker args esFeed launchTime timeRem0 timeRem postOk upd name c₀
        history).convAlerts
      = (if (history.any fun ad => !ad.convertible) = true then 1 else 0) ∧
    (runWorker args esFeed launchTime timeRem0 timeRem postOk upd name c₀
        history).appended
      = (history.filter JobAd.convertible).map JobAd.docId ∧
    List.Perm
      (postedIds (runWorker args esFeed launchTime timeRem0 timeRem postOk
        upd name c₀ history).posts)
      ((history.filter JobAd.convertible).map JobAd.docId) ∧
    (runWorker args esFeed launchTime timeRem0 timeRem postOk upd name c₀
        history).checkpoint
      = some (name, List.foldl upd c₀ (history.filter JobAd.convertible)) ∧
    (runWorker args esFeed launchTime timeRem0 timeRem postOk upd name c₀
        history).count = (history.filter JobAd.convertible).length := by
  have h0' : ¬ timeRem0 < 0 := not_lt.mpr h0
  have hloop := workerLoop_nocap args esFeed launchTime timeRem postOk upd
    htime hpost hcap history (initState c₀)
  have hls := loopState_eq args esFeed launchTime timeRem postOk upd c₀
    history hdry
  have hcrash : (flushResult args esFeed launchTime timeRem postOk upd c₀
      history).2.2 = false :=
    finalFlush_no_crash args esFeed postOk hpost _ _ _
  have htOut : (loopState args esFeed launchTime timeRem postOk upd c₀
      history).timedOut = false := by
    rw [hls]; exact hloop.2.1
  have happ : (loopState args esFeed launchTime timeRem postOk upd c₀
      history).appended
      = (history.filter JobAd.convertible).map JobAd.docId := by
    rw [hls]; exact hloop.2.2.2.1
  have hcount : (loopState args esFeed launchTime timeRem postOk upd c₀
      history).count = (history.filter JobAd.convertible).length := by
    rw [hls]; exact hloop.2.2.2.2.1.trans (Nat.zero_add _)
  have hcursor : (loopState args esFeed launchTime timeRem postOk upd c₀
      history).cursor
      = List.foldl upd c₀ (history.filter JobAd.convertible) := by
    rw [hls]; exact hloop.2.2.1
  have hconvAl : (loopState args esFeed launchTime timeRem postOk upd c₀
      history).convAlerts
      = (if (history.any fun ad => !ad.convertible) = true then 1
         else 0) := by
    rw [hls]
    refine hloop.2.2.2.2.2.2.trans ?_
    by_cases hP : (history.any fun ad => !ad.convertible) = true
    · simp [hP, initState]
    · simp [hP, initState]
  have hchk : (runWorker args esFeed launchTime timeRem0 timeRem postOk upd
      name c₀ history).checkpoint
      = some (name,
          List.foldl upd c₀ (history.filter JobAd.convertible)) := by
    rw [runWorker_eq args esFeed launchTime timeRem0 timeRem postOk upd name
      c₀ history h0']
    dsimp only
    rw [hcrash, htOut, hcursor]
    rfl
  have happR : (runWorker args esFeed launchTime timeRem0 timeRem postOk upd
      name c₀ history).appended
      = (history.filter JobAd.convertible).map JobAd.docId := by
    rw [runWorker_eq args esFeed launchTime timeRem0 timeRem postOk upd name
      c₀ history h0']
    exact happ
  have hperm : List.Perm
      (postedIds (runWorker args esFeed launchTime timeRem0 timeRem postOk
        upd name c₀ history).posts)
      ((history.filter JobAd.convertible).map JobAd.docId) := by
    have hcf := runWorker_checkpoint_flush args esFeed launchTime timeRem0
      timeRem postOk upd name c₀ history hro hfeed
    refine (hcf.2 _ hchk).trans ?_
    rw [happR]
  refine ⟨?_, ?_, ?_, happR, hperm, hchk, ?_⟩
  · rw [runWorker_eq args esFeed launchTime timeRem0 timeRem postOk upd name
      c₀ history h0']
    exact hcrash
  · rw [runWorker_eq args esFeed launchTime timeRem0 timeRem postOk upd name
      c₀ history h0']
    exact htOut
  · rw [runWorker_eq args esFeed launchTime timeRem0 timeRem postOk upd name
      c₀ history h0']
    exact hconvAl
  · rw [runWorker_eq args esFeed launchTime timeRem0 timeRem postOk upd name
      c₀ history h0']
    exact hcount

/-- A full run with healthy oracles, live flags, an all-convertible
stream longer than the configured record cap: exactly `cap + 1` records
are processed, nothing times out or crashes, everything buffered is
posted, and the checkpoint cursor is the fold over the first `cap + 1`
records. -/
theorem runWorker_cap_good {γ : Type} (args : Args) (esFeed : Bool)
    (launchTime : Int) (timeRem0 : Int) (timeRem : Nat → Int)
    (postOk : Nat → Bool) (upd : γ → JobAd → γ) (name : String) (c₀ : γ)
    (history : List JobAd) (hro : args.readOnly = false)
    (hfeed : esFeed = true) (hdry : args.dryRun = false) (h0 : 0 ≤ timeRem0)
    (htime : ∀ n, 0 ≤ timeRem n) (hpost : ∀ n, postOk n = true)
    (hcap : args.processMaxDocuments ≠ 0)
    (hconv : ∀ ad ∈ history, ad.convertible = true)
    (hlen : args.processMaxDocuments < history.length) :
    (runWorker args esFeed launchTime timeRem0 timeRem postOk upd name c₀
        history).crashed = false ∧
    (runWorker args esFeed launchTime timeRem0 timeRem postOk upd name c₀
        history).timedOut = false ∧
    (runWorker args esFeed launchTime timeRem0 timeRem postOk upd name c₀
        history).count = args.processMaxDocuments + 1 ∧
    (runWorker args esFeed launchTime timeRem0 timeRem postOk upd name c₀
        history).appended
      = (history.take (args.processMaxDocuments + 1)).map JobAd.docId ∧
    List.Perm
      (postedIds (runWorker args esFeed launchTime timeRem0 timeRem postOk
        upd name c₀ history).posts)
      ((history.take (args.processMaxDocuments + 1)).map JobAd.docId) ∧
    (runWorker args esFeed launchTime timeRem0 timeRem postOk upd name c₀
        history).checkpoint
      = some (name, List.foldl upd c₀
          (history.take (args.processMaxDocuments + 1))) := by
  have h0' : ¬ timeRem0 < 0 := not_lt.mpr h0
  have hloop := workerLoop_cap args esFeed launchTime timeRem postOk upd
    htime hpost hcap history (initState c₀) hconv (Nat.zero_le _)
  have hls := loopState_eq args esFeed launchTime timeRem postOk upd c₀
    history hdry
  have hcrash : (flushResult args esFeed launchTime timeRem postOk upd c₀
      history).2.2 = false :=
    finalFlush_no_crash args esFeed postOk hpost _ _ _
  have hsub : args.processMaxDocuments + 1 - (initState (γ := γ) c₀).count
      = args.processMaxDocuments + 1 := rfl
  have htOut : (loopState args esFeed launchTime timeRem postOk upd c₀
      history).timedOut = false := by
    rw [hls]; exact hloop.2.1
  have hcount : (loopState args esFeed launchTime timeRem postOk upd c₀
      history).count = args.processMaxDocuments + 1 := by
    rw [hls]
    refine hloop.2.2.1.trans ?_
    have : (initState (γ := γ) c₀).count = 0 := rfl
    rw [this]
    omega
  have happ : (loopState args esFeed launchTime timeRem postOk upd c₀
      history).appended
      = (history.take (args.processMaxDocuments + 1)).map JobAd.docId := by
    rw [hls]
    refine hloop.2.2.2.2.trans ?_
    rw [hsub]
    rfl
  have hcursor : (loopState args esFeed launchTime timeRem postOk upd c₀
      history).cursor
      = List.foldl upd c₀
          (history.take (args.processMaxDocuments + 1)) := by
    rw [hls]
    refine hloop.2.2.2.1.trans ?_
    rw [hsub]
    rfl
  have hchk : (runWorker args esFeed launchTime timeRem0 timeRem postOk upd
      name c₀ history).checkpoint
      = some (name, List.foldl upd c₀
          (history.take (args.processMaxDocuments + 1))) := by
    rw [runWorker_eq args esFeed launchTime timeRem0 timeRem postOk upd name
      c₀ history h0']
    dsimp only
    rw [hcrash, htOut, hcursor]
    rfl
  have happR : (runWorker args esFeed launchTime timeRem0 timeRem postOk upd
      name c₀ history).appended
      = (history.take (args.processMaxDocuments + 1)).map JobAd.docId := by
    rw [runWorker_eq args esFeed launchTime timeRem0 timeRem postOk upd name
      c₀ history h0']
    exact happ
  have hperm : List.Perm
      (postedIds (runWorker args esFeed launchTime timeRem0 timeRem postOk
        upd name c₀ history).posts)
      ((history.take (args.processMaxDocuments + 1)).map JobAd.docId) := by
    have hcf := runWorker_checkpoint_flush args esFeed launchTime timeRem0
      timeRem postOk upd name c₀ history hro hfeed
    refine (hcf.2 _ hchk).trans ?_
    rw [happR]
  refine ⟨?_, ?_, ?_, happR, hperm, hchk⟩
  · rw [runWorker_eq args esFeed launchTime timeRem0 timeRem postOk upd name
      c₀ history h0']
    exact hcrash
  · rw [runWorker_eq args esFeed launchTime timeRem0 timeRem postOk upd name
      c₀ history h0']
    exact htOut
  · rw [runWorker_eq args esFeed launchTime timeRem0 timeRem postOk upd name
      c₀ history h0']
    exact hcount

/-- Folding the schedd cursor update over a strictly increasing record
list that everywhere exceeds the starting cursor lands on the last
record's completion time. -/
theorem foldl_scheddUpdate_getLast :
    ∀ (l : List JobAd) (c : Int) (hne : l ≠ []),
      (∀ ad ∈ l, c < ad.enteredCurrentStatus) →
      List.Pairwise
        (fun a b : JobAd =>
          a.enteredCurrentStatus < b.enteredCurrentStatus) l →
      List.foldl scheddUpdate c l = (l.getLast hne).enteredCurrentStatus := by
  intro l
  induction l with
  | nil => intro c hne; exact absurd rfl hne
  | cons a t ih =>
    intro c _ hmem hpw
    have hca : a.enteredCurrentStatus > c :=
      hmem a (List.mem_cons_self _ _)
    cases t with
    | nil =>
      simp [List.foldl, scheddUpdate, hca, List.getLast]
    | cons b t' =>
      have hstep : List.foldl scheddUpdate c (a :: b :: t')
          = List.foldl scheddUpdate a.enteredCurrentStatus (b :: t') := by
        simp [List.foldl, scheddUpdate, hca]
      rw [hstep]
      have hmem' : ∀ ad ∈ b :: t',
          a.enteredCurrentStatus < ad.enteredCurrentStatus := by
        intro ad had
        exact (List.pairwise_cons.mp hpw).1 ad had
      have hpw' := (List.pairwise_cons.mp hpw).2
      rw [ih a.enteredCurrentStatus (List.cons_ne_nil b t') hmem' hpw']
      rw [List.getLast_cons (List.cons_ne_nil b t')]

/-- Folding the startd cursor update over records none of which exceeds
the cursor timestamp leaves the composite cursor unchanged. -/
theorem foldl_startdUpdate_const :
    ∀ (l : List JobAd) (s : Since),
      (∀ ad ∈ l, ad.enteredCurrentStatus ≤ s.enteredCurrentStatus) →
      List.foldl startdUpdate s l = s := by
  intro l
  induction l with
  | nil => intro s _; rfl
  | cons a t ih =>
    intro s hmem
    have ha : ¬ a.enteredCurrentStatus > s.enteredCurrentStatus :=
      not_lt.mpr (hmem a (List.mem_cons_self _ _))
    have hupd : startdUpdate s a = s := by
      unfold startdUpdate
      rw [if_neg ha]
    rw [List.foldl_cons, hupd]
    exact ih s fun ad had => hmem ad (List.mem_cons_of_mem a had)

/-- A default argument set: live feed, no cap, bunch size 250 (the
spider.py default). -/
def argsStd : Args :=
  { readOnly := false, dryRun := false, esFeedScheddHistory := true,
    esFeedStartdHistory := true, esBunchSize := 250,
    processMaxDocuments := 0 }

/-- Arguments with a record cap of 1. -/
def argsCap1 : Args :=
  { readOnly := false, dryRun := false, esFeedScheddHistory := true,
    esFeedStartdHistory := true, esBunchSize := 250,
    processMaxDocuments := 1 }

/-- A convertible ad with the given completion time and document id. -/
def mkAd (e : Int) (d : Nat) : JobAd :=
  { indexAttrVal := none, enteredCurrentStatus := e, qdate := none,
    globalJobId := "g", convertible := true, docId := d }

/-- A possibly non-convertible ad with a configured index attribute. -/
def mkAd2 (e : Int) (d : Nat) (c : Bool) : JobAd :=
  { indexAttrVal := some (AdVal.num 100), enteredCurrentStatus := e,
    qdate := none, globalJobId := "g", convertible := c, docId := d }

/-!  ## C1 — checkpoint only after full flush -/

/-- C1: for every worker run (schedd or startd variant), the
(source-id, cursor) checkpoint message is enqueued only after every
buffered batch of documents from that run has been posted: if the final
flush raises, the emission is never reached, and whenever a checkpoint
is emitted the posted document ids are exactly (as a multiset) the ids
that were buffered during the run. -/
theorem checkpoint_only_after_full_flush
    (args : Args) (launchTime timeRem0 : Int) (timeRem : Nat → Int)
    (postOk : Nat → Bool) (name machine : String) (c₀ : Int)
    (since₀ : Since) (histS histT : List JobAd)
    (hro : args.readOnly = false) (hs : args.esFeedScheddHistory = true)
    (ht : args.esFeedStartdHistory = true) :
    ((process_schedd args launchTime timeRem0 timeRem postOk name c₀
        histS).crashed = true →
      (process_schedd args launchTime timeRem0 timeRem postOk name c₀
        histS).checkpoint = none) ∧
    (∀ p, (process_schedd args launchTime timeRem0 timeRem postOk name c₀
        histS).checkpoint = some p →
      List.Perm
        (postedIds (process_schedd args launchTime timeRem0 timeRem postOk
          name c₀ histS).posts)
        (process_schedd args launchTime timeRem0 timeRem postOk name c₀
          histS).appended) ∧
    ((process_startd args launchTime timeRem0 timeRem postOk machine since₀
        histT).crashed = true →
      (process_startd args launchTime timeRem0 timeRem postOk machine since₀
        histT).checkpoint = none) ∧
    (∀ p, (process_startd args launchTime timeRem0 timeRem postOk machine
        since₀ histT).checkpoint = some p →
      List.Perm
        (postedIds (process_startd args launchTime timeRem0 timeRem postOk
          machine since₀ histT).posts)
        (process_startd args launchTime timeRem0 timeRem postOk machine
          since₀ histT).appended) := by
  have h1 := runWorker_checkpoint_flush args args.esFeedScheddHistory
    launchTime timeRem0 timeRem postOk scheddUpdate name c₀ histS hro hs
  have h2 := runWorker_checkpoint_flush args args.esFeedStartdHistory
    launchTime timeRem0 timeRem postOk startdUpdate machine since₀ histT
    hro ht
  exact ⟨h1.1, h1.2, h2.1, h2.2⟩

/-- Witness for C1, at a concrete two-record run. -/
theorem checkpoint_only_after_full_flush_witness :
    argsStd.readOnly = false ∧ argsStd.esFeedScheddHistory = true ∧
    argsStd.esFeedStartdHistory = true ∧
    (∀ p, (process_schedd argsStd 1000 600 (fun _ => 600) (fun _ => true)
        "s" 0 [mkAd 1 1, mkAd 2 2]).checkpoint = some p →
      List.Perm
        (postedIds (process_schedd argsStd 1000 600 (fun _ => 600)
          (fun _ => true) "s" 0 [mkAd 1 1, mkAd 2 2]).posts)
        (process_schedd argsStd 1000 600 (fun _ => 600) (fun _ => true)
          "s" 0 [mkAd 1 1, mkAd 2 2]).appended) := by
  refine ⟨rfl, rfl, rfl, ?_⟩
  exact (checkpoint_only_after_full_flush argsStd 1000 600 (fun _ => 600)
    (fun _ => true) "s" "m" 0 { globalJobId := "A", enteredCurrentStatus := 0 }
    [mkAd 1 1, mkAd 2 2] [] rfl rfl rfl).2.1

/-!  ## C2 — the schedd query predicate -/

/-- C2 counterexample: the query expression built at history.py line 63
uses `>=`, so a record whose `EnteredCurrentStatus` equals the cursor is
selected, contrary to the claim that it is excluded. -/
theorem schedd_query_includes_equal_cursor :
    evalHistExpr (schedd_history_query 100) (mkAd 100 0) = true := by
  decide

/-- C2 amended: the variant-A query predicate selects exactly the records
whose ordering field is greater than or equal to the cursor. -/
theorem schedd_query_selects_ge_cursor (c : Int) (ad : JobAd) :
    evalHistExpr (schedd_history_query c) ad = true ↔
      c ≤ ad.enteredCurrentStatus := by
  simp [evalHistExpr, schedd_history_query, adAttr, ge_iff_le]

/-!  ## C4 — loading the checkpoint store -/

/-- C4 counterexample: `load_checkpoint` only catches `IOError`, so a
present but malformed `checkpoint.json` raises a decode error
(`ValueError`) instead of yielding an empty mapping. -/
theorem load_checkpoint_raises_on_malformed :
    load_checkpoint (FileState.content StoreContent.malformed)
      = Except.error PyExc.valueError := rfl

/-- C4 amended: `load_checkpoint` returns the persisted mapping, and an
empty mapping when the file is absent or unreadable (`IOError`); a
malformed file raises. -/
theorem load_checkpoint_empty_on_io_error (m : CheckpointMap) :
    load_checkpoint FileState.absent = Except.ok [] ∧
    load_checkpoint FileState.unreadable = Except.ok [] ∧
    load_checkpoint (FileState.content (StoreContent.valid m))
      = Except.ok m := by
  refine ⟨rfl, rfl, ?_⟩
  rfl

/-!  ## C5 — writing the checkpoint store -/

/-- C5 counterexample: a write that fails partway leaves the store
neither at its previous contents nor at the complete new mapping — the
file was truncated in place and holds a partial document on which the
next load raises. -/
theorem update_checkpoint_not_atomic_cx :
    (update_checkpoint
        (FileState.content (StoreContent.valid [("a", CheckpointVal.ts 1)]))
        "b" (CheckpointVal.ts 2) WriteOutcome.failPartway).1
      ≠ FileState.content (StoreContent.valid [("a", CheckpointVal.ts 1)]) ∧
    load_checkpoint (update_checkpoint
        (FileState.content (StoreContent.valid [("a", CheckpointVal.ts 1)]))
        "b" (CheckpointVal.ts 2) WriteOutcome.failPartway).1
      = Except.error PyExc.valueError := by
  refine ⟨by decide, rfl⟩

/-- C5 amended: `update_checkpoint` rewrites the store in place
(truncate then dump): a complete write persists the full updated
mapping, but a write failing partway leaves a truncated document — the
previous contents are lost and the next load raises. -/
theorem update_checkpoint_write_behavior (m : CheckpointMap) (k : String)
    (v : CheckpointVal) :
    update_checkpoint (FileState.content (StoreContent.valid m)) k v
        WriteOutcome.complete
      = (FileState.content (StoreContent.valid (setKey m k v)), none) ∧
    update_checkpoint (FileState.content (StoreContent.valid m)) k v
        WriteOutcome.failPartway
      = (FileState.content (StoreContent.truncated (setKey m k v)),
          some PyExc.ioError) ∧
    load_checkpoint (FileState.content (StoreContent.truncated (setKey m k v)))
      = Except.error PyExc.valueError := by
  refine ⟨rfl, rfl, rfl⟩

/-!  ## C6 — the Harvest Coordinator's per-task wait timeout -/

/-- C6 counterexample: with 660 seconds of remaining global time, the
code waits 670 seconds on the task, not the `max(10, 660) = 660` the
claim states. -/
theorem wait_timeout_not_spec_max_cx :
    per_task_wait_timeout 660 0 = 670 ∧
    spec_per_task_wait_timeout 660 0 = 660 ∧
    (670 : Int) ≠ 660 := by
  decide

/-- C6 amended: the per-task wait timeout is remaining-global-time plus
10 seconds; whenever the remaining time is non-negative it exceeds the
spec's `max(10, remaining)` by `min(10, remaining)`. -/
theorem wait_timeout_is_remaining_plus_ten (budget elapsed : Int) :
    per_task_wait_timeout budget elapsed
        = time_remaining budget elapsed + 10 ∧
    per_task_wait_timeout budget elapsed
        = spec_per_task_wait_timeout budget elapsed
          + min 10 (time_remaining budget elapsed) := by
  refine ⟨rfl, ?_⟩
  unfold per_task_wait_timeout spec_per_task_wait_timeout
  rcases le_total (time_remaining budget elapsed) 10 with h10 | h10
  · rw [max_eq_left h10, min_eq_right h10]
    omega
  · rw [max_eq_right h10, min_eq_left h10]

/-!  ## C9 — the preflight deadline check -/

/-- C9 counterexample: the preflight check at history.py line 51 is
strict (`< 0`), so with remaining global time exactly 0 the worker does
query the daemon and does emit a checkpoint, contrary to the claim for
remaining time ≤ 0. -/
theorem preflight_zero_remaining_proceeds_cx :
    (process_schedd argsStd 1000 0 (fun _ => 600) (fun _ => true) "s" 7
      []).queryPerformed = true ∧
    (process_schedd argsStd 1000 0 (fun _ => 600) (fun _ => true) "s" 7
      []).checkpoint = some ("s", 7) := by
  constructor
  · rfl
  · rfl

/-- C9 amended: whenever the remaining global time is strictly negative
at entry, both worker variants alert and return the input cursor
unchanged, with no query, no posts and no checkpoint message. -/
theorem preflight_negative_remaining_noop
    (args : Args) (launchTime timeRem0 : Int) (timeRem : Nat → Int)
    (postOk : Nat → Bool) (name machine : String) (c₀ : Int)
    (since₀ : Since) (histS histT : List JobAd) (h : timeRem0 < 0) :
    process_schedd args launchTime timeRem0 timeRem postOk name c₀ histS
      = { queryPerformed := false, posts := [], appended := [],
          convAlerts := 0, timeoutAlert := true, streamErrAlert := false,
          timedOut := false, count := 0, crashed := false,
          checkpoint := none, ret := c₀ } ∧
    process_startd args launchTime timeRem0 timeRem postOk machine since₀
        histT
      = { queryPerformed := false, posts := [], appended := [],
          convAlerts := 0, timeoutAlert := true, streamErrAlert := false,
          timedOut := false, count := 0, crashed := false,
          checkpoint := none, ret := since₀ } :=
  ⟨runWorker_preflight_eq args args.esFeedScheddHistory launchTime timeRem0
      timeRem postOk scheddUpdate name c₀ histS h,
    runWorker_preflight_eq args args.esFeedStartdHistory launchTime timeRem0
      timeRem postOk startdUpdate machine since₀ histT h⟩

/-- Witness for C9 at remaining time -1. -/
theorem preflight_negative_remaining_noop_witness :
    (-1 : Int) < 0 ∧
    (process_schedd argsStd 1000 (-1) (fun _ => 600) (fun _ => true) "s" 7
        [mkAd 1 1]).checkpoint = none ∧
    (process_schedd argsStd 1000 (-1) (fun _ => 600) (fun _ => true) "s" 7
        [mkAd 1 1]).queryPerformed = false := by
  refine ⟨by decide, ?_, ?_⟩
  · have h := preflight_negative_remaining_noop argsStd 1000 (-1)
      (fun _ => 600) (fun _ => true) "s" "m" 7
      { globalJobId := "A", enteredCurrentStatus := 0 } [mkAd 1 1] []
      (by decide)
    rw [h.1]
  · have h := preflight_negative_remaining_noop argsStd 1000 (-1)
      (fun _ => 600) (fun _ => true) "s" "m" 7
      { globalJobId := "A", enteredCurrentStatus := 0 } [mkAd 1 1] []
      (by decide)
    rw [h.1]

/-!  ## C3 — the record cap -/

/-- C3 counterexample: with cap 1 over a 3-record stream, 2 records are
processed (converted, bucketed, counted) and the emitted cursor is that
of record 2 — the check `count > cap` runs only after a record has been
fully processed, so `cap + 1` records are consumed, not `cap`. -/
theorem record_cap_processes_extra_record_cx :
    argsCap1.processMaxDocuments = 1 ∧
    (process_schedd argsCap1 1000 600 (fun _ => 600) (fun _ => true) "s" 0
      [mkAd 1 1, mkAd 2 2, mkAd 3 3]).count = 2 ∧
    (process_schedd argsCap1 1000 600 (fun _ => 600) (fun _ => true) "s" 0
      [mkAd 1 1, mkAd 2 2, mkAd 3 3]).checkpoint = some ("s", 2) ∧
    (2 : Nat) ≠ 1 := by
  refine ⟨rfl, rfl, rfl, by decide⟩

/-- C3 amended: for every run with a record cap `c > 0` over an
all-convertible stream of more than `c` matching records (healthy
oracles, live flags), exactly `c + 1` records are processed, all
buffered batches are flushed, the run is not marked timed out, and the
emitted cursor is that of record number `c + 1` (for a stream whose
ordering field is strictly increasing above the starting cursor). -/
theorem record_cap_stops_after_cap_plus_one (args : Args)
    (launchTime timeRem0 : Int) (timeRem : Nat → Int) (postOk : Nat → Bool)
    (name : String) (c₀ : Int) (history : List JobAd)
    (hro : args.readOnly = false) (hs : args.esFeedScheddHistory = true)
    (hdry : args.dryRun = false) (h0 : 0 ≤ timeRem0)
    (htime : ∀ n, 0 ≤ timeRem n) (hpost : ∀ n, postOk n = true)
    (hcap : args.processMaxDocuments ≠ 0)
    (hconv : ∀ ad ∈ history, ad.convertible = true)
    (hlen : args.processMaxDocuments < history.length) :
    (process_schedd args launchTime timeRem0 timeRem postOk name c₀
        history).count = args.processMaxDocuments + 1 ∧
    (process_schedd args launchTime timeRem0 timeRem postOk name c₀
        history).timedOut = false ∧
    (process_schedd args launchTime timeRem0 timeRem postOk name c₀
        history).crashed = false ∧
    List.Perm
      (postedIds (process_schedd args launchTime timeRem0 timeRem postOk
        name c₀ history).posts)
      ((history.take (args.processMaxDocuments + 1)).map JobAd.docId) ∧
    (process_schedd args launchTime timeRem0 timeRem postOk name c₀
        history).checkpoint
      = some (name, List.foldl scheddUpdate c₀
          (history.take (args.processMaxDocuments + 1))) ∧
    ((∀ ad ∈ history, c₀ < ad.enteredCurrentStatus) →
      List.Pairwise
        (fun a b : JobAd =>
          a.enteredCurrentStatus < b.enteredCurrentStatus) history →
      ∀ hne : history.take (args.processMaxDocuments + 1) ≠ [],
        (process_schedd args launchTime timeRem0 timeRem postOk name c₀
            history).checkpoint
          = some (name, ((history.take
              (args.processMaxDocuments + 1)).getLast
                hne).enteredCurrentStatus)) := by
  have hg := runWorker_cap_good args args.esFeedScheddHistory launchTime
    timeRem0 timeRem postOk scheddUpdate name c₀ history hro hs hdry h0
    htime hpost hcap hconv hlen
  refine ⟨hg.2.2.1, hg.2.1, hg.1, hg.2.2.2.2.1, hg.2.2.2.2.2, ?_⟩
  intro hgt hpw hne
  unfold process_schedd
  rw [hg.2.2.2.2.2]
  rw [foldl_scheddUpdate_getLast (history.take (args.processMaxDocuments + 1))
    c₀ hne (fun ad h => hgt ad (List.take_subset _ _ h))
    (hpw.sublist (List.take_sublist _ _))]

/-- Witness for C3 at cap 1 over a 3-record stream. -/
theorem record_cap_stops_after_cap_plus_one_witness :
    argsCap1.readOnly = false ∧ argsCap1.esFeedScheddHistory = true ∧
    argsCap1.dryRun = false ∧ (0 : Int) ≤ 600 ∧
    argsCap1.processMaxDocuments ≠ 0 ∧
    (∀ ad ∈ [mkAd 1 1, mkAd 2 2, mkAd 3 3], ad.convertible = true) ∧
    argsCap1.processMaxDocuments < ([mkAd 1 1, mkAd 2 2, mkAd 3 3]).length ∧
    (process_schedd argsCap1 1000 600 (fun _ => 600) (fun _ => true) "s" 0
      [mkAd 1 1, mkAd 2 2, mkAd 3 3]).count
      = argsCap1.processMaxDocuments + 1 := by
  refine ⟨rfl, rfl, rfl, by decide, by decide, by decide, by decide, ?_⟩
  exact (record_cap_stops_after_cap_plus_one argsCap1 1000 600 (fun _ => 600)
    (fun _ => true) "s" 0 [mkAd 1 1, mkAd 2 2, mkAd 3 3] rfl rfl rfl
    (by decide) (fun _ => (by decide : (0 : Int) ≤ 600)) (fun n => rfl) (by decide) (by decide)
    (by decide)).1

/-!  ## C8 — per-record conversion-failure isolation -/

/-- C8: in a run with healthy oracles, live flags and no record cap,
each record failing conversion is skipped while every other record is
converted and delivered (the posted ids are exactly the convertible
records' ids), at most one conversion alert fires (exactly one when some
record fails), the run is not timed out or crashed, and the emitted
cursor is the fold over the successfully converted records — for a
stream increasing above the starting cursor, the last successfully
processed record's cursor. -/
theorem conversion_failure_isolated (args : Args)
    (launchTime timeRem0 : Int) (timeRem : Nat → Int) (postOk : Nat → Bool)
    (name : String) (c₀ : Int) (history : List JobAd)
    (hro : args.readOnly = false) (hs : args.esFeedScheddHistory = true)
    (hdry : args.dryRun = false) (h0 : 0 ≤ timeRem0)
    (htime : ∀ n, 0 ≤ timeRem n) (hpost : ∀ n, postOk n = true)
    (hcap : args.processMaxDocuments = 0) :
    (process_schedd args launchTime timeRem0 timeRem postOk name c₀
        history).crashed = false ∧
    (process_schedd args launchTime timeRem0 timeRem postOk name c₀
        history).timedOut = false ∧
    (process_schedd args launchTime timeRem0 timeRem postOk name c₀
        history).convAlerts
      = (if (history.any fun ad => !ad.convertible) = true then 1
         else 0) ∧
    List.Perm
      (postedIds (process_schedd args launchTime timeRem0 timeRem postOk
        name c₀ history).posts)
      ((history.filter JobAd.convertible).map JobAd.docId) ∧
    (process_schedd args launchTime timeRem0 timeRem postOk name c₀
        history).checkpoint
      = some (name,
          List.foldl scheddUpdate c₀ (history.filter JobAd.convertible)) ∧
    ((∀ ad ∈ history, c₀ < ad.enteredCurrentStatus) →
      List.Pairwise
        (fun a b : JobAd =>
          a.enteredCurrentStatus < b.enteredCurrentStatus) history →
      ∀ hne : history.filter JobAd.convertible ≠ [],
        (process_schedd args launchTime timeRem0 timeRem postOk name c₀
            history).checkpoint
          = some (name, ((history.filter
              JobAd.convertible).getLast hne).enteredCurrentStatus)) := by
  have hg := runWorker_nocap_good args args.esFeedScheddHistory launchTime
    timeRem0 timeRem postOk scheddUpdate name c₀ history hro hs hdry h0
    htime hpost hcap
  refine ⟨hg.1, hg.2.1, hg.2.2.1, hg.2.2.2.2.1, hg.2.2.2.2.2.1, ?_⟩
  intro hgt hpw hne
  unfold process_schedd
  rw [hg.2.2.2.2.2.1]
  rw [foldl_scheddUpdate_getLast (history.filter JobAd.convertible) c₀ hne
    (fun ad h => hgt ad (List.mem_of_mem_filter h))
    (hpw.sublist (List.filter_sublist _))]

/-- Witness for C8: the spec's scenario — stream of 5 records where
record 3 fails conversion yields exactly the 4 other documents, exactly
1 alert, and the cursor of record 5. -/
theorem conversion_failure_isolated_witness :
    argsStd.readOnly = false ∧ argsStd.esFeedScheddHistory = true ∧
    argsStd.dryRun = false ∧ (0 : Int) ≤ 600 ∧
    argsStd.processMaxDocuments = 0 ∧
    (process_schedd argsStd 1000 600 (fun _ => 600) (fun _ => true) "s" 0
      [mkAd2 1 1 true, mkAd2 2 2 true, mkAd2 3 3 false, mkAd2 4 4 true,
        mkAd2 5 5 true]).convAlerts = 1 ∧
    List.Perm
      (postedIds (process_schedd argsStd 1000 600 (fun _ => 600)
        (fun _ => true) "s" 0
        [mkAd2 1 1 true, mkAd2 2 2 true, mkAd2 3 3 false, mkAd2 4 4 true,
          mkAd2 5 5 true]).posts) [1, 2, 4, 5] ∧
    (process_schedd argsStd 1000 600 (fun _ => 600) (fun _ => true) "s" 0
      [mkAd2 1 1 true, mkAd2 2 2 true, mkAd2 3 3 false, mkAd2 4 4 true,
        mkAd2 5 5 true]).checkpoint = some ("s", 5) := by
  have hg := conversion_failure_isolated argsStd 1000 600 (fun _ => 600)
    (fun _ => true) "s" 0
    [mkAd2 1 1 true, mkAd2 2 2 true, mkAd2 3 3 false, mkAd2 4 4 true,
      mkAd2 5 5 true] rfl rfl rfl (by decide) (fun _ => (by decide : (0 : Int) ≤ 600))
    (fun n => rfl) rfl
  exact ⟨rfl, rfl, rfl, by decide, rfl, hg.2.2.1, hg.2.2.2.1,
    hg.2.2.2.2.1⟩

/-!  ## C10 — the startd composite cursor tie-break -/

/-- C10: in a variant-B (startd) run, the composite cursor is replaced
only on a strictly greater timestamp: over a stream whose timestamps do
not exceed the cursor's, the emitted cursor is the input cursor
unchanged — in particular a record with equal timestamp but different
entity id never becomes the cursor — yet such records are delivered,
and, not matching the `since` stop expression, they are re-selected
(and re-upserted) on the next run. -/
theorem startd_cursor_equal_ts_not_advanced (args : Args)
    (launchTime timeRem0 : Int) (timeRem : Nat → Int) (postOk : Nat → Bool)
    (machine : String) (since₀ : Since) (history : List JobAd)
    (hro : args.readOnly = false) (ht : args.esFeedStartdHistory = true)
    (hdry : args.dryRun = false) (h0 : 0 ≤ timeRem0)
    (htime : ∀ n, 0 ≤ timeRem n) (hpost : ∀ n, postOk n = true)
    (hcap : args.processMaxDocuments = 0)
    (hconv : ∀ ad ∈ history, ad.convertible = true)
    (hle : ∀ ad ∈ history,
      ad.enteredCurrentStatus ≤ since₀.enteredCurrentStatus) :
    (process_startd args launchTime timeRem0 timeRem postOk machine since₀
        history).checkpoint = some (machine, since₀) ∧
    List.Perm
      (postedIds (process_startd args launchTime timeRem0 timeRem postOk
        machine since₀ history).posts)
      (history.map JobAd.docId) ∧
    (∀ ad ∈ history,
      ad.enteredCurrentStatus = since₀.enteredCurrentStatus →
      ad.globalJobId ≠ since₀.globalJobId →
      since_expr since₀ ad = false ∧ startd_selects since₀ ad = true) := by
  have hg := runWorker_nocap_good args args.esFeedStartdHistory launchTime
    timeRem0 timeRem postOk startdUpdate machine since₀ history hro ht hdry
    h0 htime hpost hcap
  have hfilter : history.filter JobAd.convertible = history :=
    List.filter_eq_self.mpr hconv
  refine ⟨?_, ?_, ?_⟩
  · have := hg.2.2.2.2.2.1
    rw [hfilter, foldl_startdUpdate_const history since₀ hle] at this
    exact this
  · have := hg.2.2.2.2.1
    rw [hfilter] at this
    exact this
  · intro ad _ heq hneq
    constructor
    · simp [since_expr, hneq]
    · simp [startd_selects, heq, hneq]

/-- Witness for C10: cursor ("A", 100), one record ("B", 100): the
checkpoint keeps the cursor and the record is selected again next run. -/
theorem startd_cursor_equal_ts_not_advanced_witness :
    argsStd.readOnly = false ∧ argsStd.esFeedStartdHistory = true ∧
    argsStd.dryRun = false ∧ (0 : Int) ≤ 600 ∧
    argsStd.processMaxDocuments = 0 ∧
    (process_startd argsStd 1000 600 (fun _ => 600) (fun _ => true) "m"
      { globalJobId := "A", enteredCurrentStatus := 100 }
      [{ indexAttrVal := none, enteredCurrentStatus := 100, qdate := none,
         globalJobId := "B", convertible := true, docId := 9 }]).checkpoint
      = some ("m", { globalJobId := "A", enteredCurrentStatus := 100 }) := by
  have hg := startd_cursor_equal_ts_not_advanced argsStd 1000 600
    (fun _ => 600) (fun _ => true) "m"
    { globalJobId := "A", enteredCurrentStatus := 100 }
    [{ indexAttrVal := none, enteredCurrentStatus := 100, qdate := none,
       globalJobId := "B", convertible := true, docId := 9 }] rfl rfl rfl
    (by decide) (fun _ => (by decide : (0 : Int) ≤ 600)) (fun n => rfl) rfl (by decide)
    (by decide)
  exact ⟨rfl, rfl, rfl, by decide, rfl, hg.1⟩

/-!  ## C7 — destination bucket key priority order -/

/-- A record whose configured timestamp attribute is 150. -/
def adT : JobAd :=
  { indexAttrVal := some (AdVal.num 150), enteredCurrentStatus := 7,
    qdate := none, globalJobId := "g", convertible := true, docId := 1 }

/-- A record with non-positive primary timestamp and
`EnteredCurrentStatus` 200. -/
def adF : JobAd :=
  { indexAttrVal := some (AdVal.num 0), enteredCurrentStatus := 200,
    qdate := none, globalJobId := "g", convertible := true, docId := 2 }

/-- A record all of whose timestamps are non-positive. -/
def adL : JobAd :=
  { indexAttrVal := some (AdVal.num 0), enteredCurrentStatus := 0,
    qdate := some 0, globalJobId := "g", convertible := true, docId := 3 }

/-- C7: the destination bucket key is chosen in priority order — the
configured timestamp attribute when numeric and positive, else
`EnteredCurrentStatus` when positive, else `QDate` when present and
positive, else the worker's launch time — and a worker run files each
record's document under the bucket `get_index (index_time ...)`;
concretely, primary 150 lands in bucket 150, primary ≤ 0 with fallback
200 in bucket 200, and all-non-positive timestamps in the launch-time
bucket. -/
theorem bucket_key_priority_order :
    (∀ (ad : JobAd) (launch n : Int),
      ad.indexAttrVal = some (AdVal.num n) → 0 < n →
      index_time ad launch = n) ∧
    (∀ (ad : JobAd) (launch : Int), primaryPositive ad = false →
      0 < ad.enteredCurrentStatus →
      index_time ad launch = ad.enteredCurrentStatus) ∧
    (∀ (ad : JobAd) (launch : Int), primaryPositive ad = false →
      ad.enteredCurrentStatus ≤ 0 → qdatePositive ad = true →
      index_time ad launch = ad.qdate.getD launch) ∧
    (∀ (ad : JobAd) (launch : Int), primaryPositive ad = false →
      ad.enteredCurrentStatus ≤ 0 → qdatePositive ad = false →
      index_time ad launch = launch) ∧
    (process_schedd argsStd 555 600 (fun _ => 600) (fun _ => true) "s" 0
      [adT]).posts = [(get_index (index_time adT 555), [1])] ∧
    index_time adT 555 = 150 ∧
    (process_schedd argsStd 555 600 (fun _ => 600) (fun _ => true) "s" 0
      [adF]).posts = [(get_index (index_time adF 555), [2])] ∧
    index_time adF 555 = 200 ∧
    (process_schedd argsStd 555 600 (fun _ => 600) (fun _ => true) "s" 0
      [adL]).posts = [(get_index (index_time adL 555), [3])] ∧
    index_time adL 555 = 555 := by
  refine ⟨?_, ?_, ?_, ?_, rfl, rfl, rfl, rfl, rfl, rfl⟩
  · intro ad launch n h hn
    simp [index_time, h, hn]
  · intro ad launch hpp hecs
    rcases had : ad.indexAttrVal with _ | v
    · simp [index_time, had, hecs]
    · cases v with
      | num n =>
        have hn : ¬ 0 < n := by
          unfold primaryPositive at hpp
          rw [had] at hpp
          simpa using hpp
        simp [index_time, had, hecs, hn]
      | nonNumeric =>
        simp [index_time, had, hecs]
  · intro ad launch hpp hecs hq
    have hecs' : ¬ ad.enteredCurrentStatus > 0 := not_lt.mpr hecs
    rcases hqd : ad.qdate with _ | q
    · unfold qdatePositive at hq
      rw [hqd] at hq
      cases hq
    · have hq' : 0 < q := by
        unfold qdatePositive at hq
        rw [hqd] at hq
        simpa using hq
      rcases had : ad.indexAttrVal with _ | v
      · simp [index_time, had, hecs', hqd, hq']
      · cases v with
        | num n =>
          have hn : ¬ 0 < n := by
            unfold primaryPositive at hpp
            rw [had] at hpp
            simpa using hpp
          simp [index_time, had, hecs', hqd, hq', hn]
        | nonNumeric =>
          simp [index_time, had, hecs', hqd, hq']
  · intro ad launch hpp hecs hq
    have hecs' : ¬ ad.enteredCurrentStatus > 0 := not_lt.mpr hecs
    have hqd' : ∀ q, ad.qdate = some q → ¬ 0 < q := by
      intro q hqd
      unfold qdatePositive at hq
      rw [hqd] at hq
      simpa using hq
    rcases had : ad.indexAttrVal with _ | v
    · rcases hqd : ad.qdate with _ | q
      · simp [index_time, had, hecs', hqd]
      · simp [index_time, had, hecs', hqd, hqd' q hqd]
    · cases v with
      | num n =>
        have hn : ¬ 0 < n := by
          unfold primaryPositive at hpp
          rw [had] at hpp
          simpa using hpp
        rcases hqd : ad.qdate with _ | q
        · simp [index_time, had, hecs', hqd, hn]
        · simp [index_time, had, hecs', hqd, hqd' q hqd, hn]
      | nonNumeric =>
        rcases hqd : ad.qdate with _ | q
        · simp [index_time, had, hecs', hqd]
        · simp [index_time, had, hecs', hqd, hqd' q hqd]

/-- Witness for C7 exercising the fallback branches at concrete
records. -/
theorem bucket_key_priority_order_witness :
    primaryPositive adF = false ∧ 0 < adF.enteredCurrentStatus ∧
    index_time adF 555 = adF.enteredCurrentStatus ∧
    primaryPositive adL = false ∧ adL.enteredCurrentStatus ≤ 0 ∧
    qdatePositive adL = false ∧ index_time adL 555 = 555 := by
  refine ⟨by decide, by decide, ?_, by decide, by decide, by decide, ?_⟩
  · exact bucket_key_priority_order.2.1 adF 555 (by decide) (by decide)
  · exact bucket_key_priority_order.2.2.2.1 adL 555 (by decide) (by decide)
      (by decide)

end Spider
